import Mathlib

/-!
Verification of the parallel-search orchestration core of the repository
(`src/parallel_search.py`), shallowly embedded in Lean 4.

Modelling conventions:
* Python dictionaries / dataclasses become Lean structures.
* A provider's `search` call is modelled by a `ProviderBehavior`: it either
  raises an exception or returns a `SearchResponse`.  Whether the call settles
  before the overall timeout is modelled by the boolean field `finishes`
  (wall-clock durations themselves are outside the embedding, so the
  `execution_time` field of the Python result dataclass is not modelled).
* `concurrent.futures.as_completed(futures, timeout=...)` yields completed
  futures in completion order and raises `TimeoutError` if some future is
  still unsettled when the timeout expires.  Completion order is
  nondeterministic; the embedding fixes one admissible schedule (submission
  order, i.e. provider-list order).  The asynchronous entry point iterates
  the task list in submission order in the source itself, so there it is not
  an abstraction.
* Fallible Python code is embedded with `Except`: `search_parallel` can let
  `concurrent.futures.TimeoutError` escape, so it returns
  `Except String ParallelSearchResult`.
-/

namespace DailyStock

/-- The ASCII whitespace characters removed by Python's `str.strip()`
(space, tab, newline, carriage return, vertical tab, form feed; the unicode
space classes Python additionally strips do not occur in the claims). -/
def isPySpace (c : Char) : Bool :=
  c = ' ' ∨ c = '\t' ∨ c = '\n' ∨ c = '\r' ∨ c = '\x0b' ∨ c = '\x0c'

/-- Python's `str.strip()` (remove surrounding whitespace), as used at
`parallel_search.py:301`, expressed on the character list so that concrete
instances evaluate. -/
def pyStrip (s : String) : String :=
  ⟨((s.data.dropWhile isPySpace).reverse.dropWhile isPySpace).reverse⟩

/-- One raw search-result entry, a dict produced by a provider.  The merge at
`parallel_search.py:296-308` reads only the `title` key; the `url` key is
carried because the spec's deduplication claims speak about URLs. -/
structure SearchItem where
  title : String
  url : String
deriving Repr, DecidableEq

/-- Modelled from the spec: `SearchResponse` is defined in
`src/search_service.py`, which is not part of the sources; §6 of the spec
gives its shape `{results, success, error_message?, elapsed}` (elapsed is
wall-clock time and is not modelled).  A plain dataclass instance is truthy
in Python, so `if result and result.success` at `parallel_search.py:115`
reduces to the `success` flag whenever a response object is present. -/
structure SearchResponse where
  results : List SearchItem
  success : Bool
  error_message : Option String
deriving Repr, DecidableEq

/-- The dict form of a `SearchResponse` as consumed by `_merge_results`,
which reads only `result_dict.get('results', [])`
(`parallel_search.py:290`). -/
structure ResponseDict where
  results : List SearchItem
deriving Repr, DecidableEq

/-- Modelled from the spec: `SearchResponse.to_dict()` lives in
`src/search_service.py` (not in the sources); the merge engine only ever
reads the `results` key of the produced dict. -/
def SearchResponse.to_dict (r : SearchResponse) : ResponseDict :=
  ⟨r.results⟩

/-- Behaviour of one provider's `search(query, max_results)` call for the
query under consideration: it either raises an exception or returns a
`SearchResponse`. -/
inductive ProviderBehavior where
  | raises : ProviderBehavior
  | returns : SearchResponse → ProviderBehavior
deriving Repr, DecidableEq

/-- A `BaseSearchProvider` as seen by the orchestrator: a stable `name`, the
`is_available` predicate checked at construction
(`parallel_search.py:59`), the behaviour of its `search` call, and whether
that call settles before the overall timeout (`finishes`). -/
structure Provider where
  name : String
  is_available : Bool
  behavior : ProviderBehavior
  finishes : Bool
deriving Repr, DecidableEq

/-- The `ParallelSearchResult` dataclass (`parallel_search.py:28-37`).
`execution_time` is wall-clock time and is not modelled; there is no
`success`, `error` or `merge_stats` field in the source dataclass. -/
structure ParallelSearchResult where
  query : String
  results : List ResponseDict
  providers_used : List String
  success_count : Nat
  failed_providers : List String
  merged_results : List SearchItem
deriving Repr, DecidableEq

/-- The state of a `ParallelSearchService` after `__init__`
(`parallel_search.py:51-61`): the available-filtered provider list and the
worker bound. -/
structure ParallelSearchService where
  providers : List Provider
  max_workers : Nat
deriving Repr, DecidableEq

/-- `ParallelSearchService.__init__` (`parallel_search.py:59-60`): keep only
available providers, bound the pool size by their number. -/
def ParallelSearchService.init (providers : List Provider) (maxWorkers : Nat) :
    ParallelSearchService :=
  let avail := providers.filter (fun p => p.is_available)
  ⟨avail, min maxWorkers avail.length⟩

/-- `_search_single_provider` (`parallel_search.py:236-247`): call the
provider, catching every exception and converting it to `None`. -/
def ParallelSearchService.search_single_provider (p : Provider) :
    Option SearchResponse :=
  match p.behavior with
  | .raises => none
  | .returns r => some r

/-- A provider "fails" in the sense of the collection loop
(`parallel_search.py:113-124`): its call raises (giving `None`) or its
response is not `success`. -/
def providerFails (p : Provider) : Bool :=
  match ParallelSearchService.search_single_provider p with
  | none => true
  | some r => !r.success

/-- The result-collection loop of `search_parallel`
(`parallel_search.py:107-124`), processing providers in the fixed schedule:
a truthy successful response appends its dict to `results` and the name to
`providers_used`, everything else appends the name to `failed_providers`. -/
def collectLoop : List Provider → List ResponseDict × List String × List String
  | [] => ([], [], [])
  | p :: rest =>
    match ParallelSearchService.search_single_provider p with
    | some r =>
      if r.success then
        let t := collectLoop rest
        (r.to_dict :: t.1, p.name :: t.2.1, t.2.2)
      else
        let t := collectLoop rest
        (t.1, t.2.1, p.name :: t.2.2)
    | none =>
      let t := collectLoop rest
      (t.1, t.2.1, p.name :: t.2.2)

/-- The result-collection loop of `search_parallel_async`
(`parallel_search.py:195-211`), iterating tasks in submission order: a task
that did not settle before the timeout (`finishes = false`) goes to
`failed_providers`; a settled one is classified exactly as in the blocking
loop. -/
def asyncCollectLoop : List Provider → List ResponseDict × List String × List String
  | [] => ([], [], [])
  | p :: rest =>
    if p.finishes then
      match ParallelSearchService.search_single_provider p with
      | some r =>
        if r.success then
          let t := asyncCollectLoop rest
          (r.to_dict :: t.1, p.name :: t.2.1, t.2.2)
        else
          let t := asyncCollectLoop rest
          (t.1, t.2.1, p.name :: t.2.2)
      | none =>
        let t := asyncCollectLoop rest
        (t.1, t.2.1, p.name :: t.2.2)
    else
      let t := asyncCollectLoop rest
      (t.1, t.2.1, p.name :: t.2.2)

/-- The deduplication key used by `_merge_results`
(`parallel_search.py:301`): the stripped title, compared exactly
(case-sensitively). -/
def titleKey (x : SearchItem) : String := pyStrip x.title

/-- The dedup loop of `_merge_results` (`parallel_search.py:300-306`):
walk the items, keep an item whose stripped title is non-empty and unseen,
breaking as soon as `max_results` items are kept. -/
def mergeLoop : List SearchItem → List String → List SearchItem → Nat →
    List SearchItem
  | [], _, acc, _ => acc
  | item :: rest, seen, acc, maxR =>
    let title := titleKey item
    if title ≠ "" ∧ title ∉ seen then
      let acc' := acc ++ [item]
      if maxR ≤ acc'.length then acc'
      else mergeLoop rest (title :: seen) acc' maxR
    else
      mergeLoop rest seen acc maxR

/-- `_merge_results` (`parallel_search.py:269-308`): concatenate the
`results` lists of all provider dicts, dedupe by stripped title, truncate to
`max_results`. -/
def ParallelSearchService.merge_results (results : List ResponseDict)
    (maxResults : Nat) : List SearchItem :=
  if results = [] then []
  else
    let allItems := (results.map ResponseDict.results).flatten
    if allItems = [] then []
    else (mergeLoop allItems [] [] maxResults).take maxResults

/-- The empty `ParallelSearchResult` returned by the no-provider
short-circuit (`parallel_search.py:84-93` and `164-173`). -/
def emptyParallelResult (query : String) : ParallelSearchResult :=
  ⟨query, [], [], 0, [], []⟩

/-- `search_parallel` (`parallel_search.py:65-143`), the blocking entry
point.  With no provider it short-circuits to the empty result.  Otherwise
`as_completed(futures, timeout=timeout)` is iterated: if every future
settles before the timeout the loop classifies each outcome, else
`as_completed` raises `concurrent.futures.TimeoutError`, which no handler in
`search_parallel` catches, so it escapes to the caller (embedded as
`Except.error`). -/
def ParallelSearchService.search_parallel (svc : ParallelSearchService)
    (query : String) (maxResults : Nat) : Except String ParallelSearchResult :=
  if svc.providers = [] then
    .ok (emptyParallelResult query)
  else if svc.providers.all (fun p => p.finishes) then
    let t := collectLoop svc.providers
    .ok ⟨query, t.1, t.2.1, t.2.1.length, t.2.2,
      ParallelSearchService.merge_results t.1 maxResults⟩
  else
    .error "concurrent.futures.TimeoutError"

/-- `search_parallel_async` (`parallel_search.py:145-234`), the
suspension-based entry point.  `asyncio.wait(..., timeout, ALL_COMPLETED)`
never raises on timeout: unfinished tasks simply end up in `pending` and are
recorded as failed by the collection loop, so a result object is always
returned. -/
def ParallelSearchService.search_parallel_async (svc : ParallelSearchService)
    (query : String) (maxResults : Nat) : ParallelSearchResult :=
  if svc.providers = [] then
    emptyParallelResult query
  else
    let t := asyncCollectLoop svc.providers
    ⟨query, t.1, t.2.1, t.2.1.length, t.2.2,
      ParallelSearchService.merge_results t.1 maxResults⟩

/-- From the spec's words (§3, §4.3): URL normalization is trimming and
lower-casing.  The source's merge never normalizes or even reads URLs; this
definition exists only to state the spec's URL-deduplication property. -/
def specNormalizeUrl (s : String) : String := ⟨(pyStrip s).data.map Char.toLower⟩

/-- The dict contributed by a succeeding provider to the `results` list:
its response converted by `to_dict`.  (For a raising provider the value is
irrelevant; the collection loops never use it.) -/
def responseOf (p : Provider) : ResponseDict :=
  match p.behavior with
  | .raises => ⟨[]⟩
  | .returns r => r.to_dict

/-- A task of the asynchronous loop counts as succeeded when it settled
before the timeout and its response is a truthy success. -/
def asyncSucceeds (p : Provider) : Bool := p.finishes && !providerFails p

/- ### Helper lemmas about the dedup loop -/

theorem length_filter_split {α : Type} (p : α → Bool) :
    ∀ l : List α,
      (l.filter p).length + (l.filter (fun x => !p x)).length = l.length := by
  intro l
  induction l with
  | nil => rfl
  | cons x rest ih =>
    by_cases hx : p x <;> simp [List.filter_cons, hx, ← ih] <;> omega

theorem mergeLoop_all_blocked :
    ∀ (t : List SearchItem) (seen : List String) (acc : List SearchItem)
      (n : Nat),
      (∀ x ∈ t, titleKey x = "" ∨ titleKey x ∈ seen) →
      mergeLoop t seen acc n = acc
  | [], _, _, _, _ => rfl
  | x :: rest, seen, acc, n, h => by
    have hx := h x (List.mem_cons_self _ _)
    simp only [mergeLoop]
    rw [if_neg]
    · exact mergeLoop_all_blocked rest seen acc n
        (fun y hy => h y (List.mem_cons_of_mem _ hy))
    · rcases hx with hx | hx
      · exact fun hc => hc.1 hx
      · exact fun hc => hc.2 hx

theorem mergeLoop_fresh_append :
    ∀ (s : List SearchItem) (t : List SearchItem) (seen : List String)
      (acc : List SearchItem) (n : Nat),
      (∀ x ∈ s, titleKey x ≠ "") →
      ((s.map titleKey).Nodup) →
      (∀ x ∈ s, titleKey x ∉ seen) →
      acc.length + s.length ≤ n →
      (∀ x ∈ t, titleKey x ∈ seen ∨ titleKey x ∈ s.map titleKey) →
      mergeLoop (s ++ t) seen acc n = acc ++ s
  | [], t, seen, acc, n, _, _, _, _, h5 => by
    have : mergeLoop t seen acc n = acc := by
      apply mergeLoop_all_blocked
      intro x hx
      rcases h5 x hx with h | h
      · exact Or.inr h
      · simp at h
    simpa using this
  | x :: s', t, seen, acc, n, h1, h2, h3, h4, h5 => by
    have h2' : titleKey x ∉ s'.map titleKey ∧ (s'.map titleKey).Nodup := by
      rw [List.map_cons, List.nodup_cons] at h2
      exact h2
    have h4' : acc.length + s'.length + 1 ≤ n := by
      simp only [List.length_cons] at h4
      omega
    simp only [List.cons_append, mergeLoop]
    rw [if_pos ⟨h1 x (List.mem_cons_self _ _), h3 x (List.mem_cons_self _ _)⟩]
    by_cases hbreak : n ≤ (acc ++ [x]).length
    · rw [if_pos hbreak]
      have hb' : n ≤ acc.length + 1 := by simpa using hbreak
      have hs' : s' = [] := List.length_eq_zero.mp (by omega)
      subst hs'
      simp
    · rw [if_neg hbreak]
      have ih : mergeLoop (s' ++ t) (titleKey x :: seen) (acc ++ [x]) n =
          (acc ++ [x]) ++ s' := by
        apply mergeLoop_fresh_append
        · exact fun y hy => h1 y (List.mem_cons_of_mem _ hy)
        · exact h2'.2
        · intro y hy
          have hne : titleKey y ≠ titleKey x := by
            intro heq
            exact h2'.1 (heq ▸ List.mem_map_of_mem titleKey hy)
          simp only [List.mem_cons]
          push_neg
          exact ⟨hne, h3 y (List.mem_cons_of_mem _ hy)⟩
        · simp only [List.length_append, List.length_cons, List.length_nil]
          omega
        · intro y hy
          rcases h5 y hy with h | h
          · exact Or.inl (List.mem_cons_of_mem _ h)
          · simp only [List.map_cons, List.mem_cons] at h
            rcases h with h | h
            · exact Or.inl (by simp [h])
            · exact Or.inr h
      calc mergeLoop (s'.append t) (titleKey x :: seen) (acc ++ [x]) n
          = mergeLoop (s' ++ t) (titleKey x :: seen) (acc ++ [x]) n := rfl
        _ = (acc ++ [x]) ++ s' := ih
        _ = acc ++ x :: s' := by simp

theorem mergeLoop_invariant :
    ∀ (s : List SearchItem) (seen : List String) (acc : List SearchItem)
      (n : Nat),
      (∀ x ∈ acc, titleKey x ≠ "") →
      ((acc.map titleKey).Nodup) →
      (∀ x ∈ acc, titleKey x ∈ seen) →
      (∀ x ∈ mergeLoop s seen acc n, titleKey x ≠ "") ∧
        ((mergeLoop s seen acc n).map titleKey).Nodup := by
  intro s
  induction s with
  | nil => intro seen acc n h1 h2 _; exact ⟨h1, h2⟩
  | cons x rest ih =>
    intro seen acc n h1 h2 h3
    simp only [mergeLoop]
    by_cases hkeep : titleKey x ≠ "" ∧ titleKey x ∉ seen
    · rw [if_pos hkeep]
      have hacc1 : ∀ y ∈ acc ++ [x], titleKey y ≠ "" := by
        intro y hy
        rcases List.mem_append.mp hy with h | h
        · exact h1 y h
        · simp at h; subst h; exact hkeep.1
      have hacc2 : ((acc ++ [x]).map titleKey).Nodup := by
        rw [List.map_append]
        refine List.Nodup.append h2 (by simp) ?_
        intro a ha hb
        simp only [List.map_cons, List.map_nil, List.mem_singleton] at hb
        subst hb
        rcases List.mem_map.mp ha with ⟨y, hy, hky⟩
        exact hkeep.2 (hky ▸ h3 y hy)
      by_cases hbreak : n ≤ (acc ++ [x]).length
      · rw [if_pos hbreak]; exact ⟨hacc1, hacc2⟩
      · rw [if_neg hbreak]
        apply ih
        · exact hacc1
        · exact hacc2
        · intro y hy
          rcases List.mem_append.mp hy with h | h
          · exact List.mem_cons_of_mem _ (h3 y h)
          · simp at h; subst h; exact List.mem_cons_self _ _
    · rw [if_neg hkeep]
      exact ih seen acc n h1 h2 h3

/- ### Invariants of `_merge_results` -/

theorem merge_results_titles_ne (rs : List ResponseDict) (n : Nat) :
    ∀ x ∈ ParallelSearchService.merge_results rs n, titleKey x ≠ "" := by
  intro x hx
  unfold ParallelSearchService.merge_results at hx
  dsimp only at hx
  split at hx
  · simp at hx
  · split at hx
    · simp at hx
    · have h := (mergeLoop_invariant ((rs.map ResponseDict.results).flatten)
        [] [] n (by simp) (by simp) (by simp)).1
      exact h x (List.mem_of_mem_take hx)

theorem merge_results_nodup (rs : List ResponseDict) (n : Nat) :
    ((ParallelSearchService.merge_results rs n).map titleKey).Nodup := by
  unfold ParallelSearchService.merge_results
  dsimp only
  split
  · simp
  · split
    · simp
    · have h := (mergeLoop_invariant ((rs.map ResponseDict.results).flatten)
        [] [] n (by simp) (by simp) (by simp)).2
      exact h.sublist ((List.take_sublist _ _).map titleKey)

theorem merge_results_length_le (rs : List ResponseDict) (n : Nat) :
    (ParallelSearchService.merge_results rs n).length ≤ n := by
  unfold ParallelSearchService.merge_results
  dsimp only
  split
  · simp
  · split
    · simp
    · simp

/- ### Characterization of the two collection loops -/

theorem collectLoop_spec (ps : List Provider) :
    collectLoop ps =
      ((ps.filter (fun p => !providerFails p)).map responseOf,
       (ps.filter (fun p => !providerFails p)).map Provider.name,
       (ps.filter providerFails).map Provider.name) := by
  induction ps with
  | nil => rfl
  | cons p rest ih =>
    simp only [collectLoop, List.filter_cons]
    cases hb : p.behavior with
    | raises =>
      have hf : providerFails p = true := by
        simp [providerFails, ParallelSearchService.search_single_provider, hb]
      simp [ParallelSearchService.search_single_provider, hb, hf, ih]
    | returns r =>
      cases hs : r.success with
      | true =>
        have hf : providerFails p = false := by
          simp [providerFails, ParallelSearchService.search_single_provider, hb, hs]
        simp [ParallelSearchService.search_single_provider, hb, hs, hf, ih,
          responseOf]
      | false =>
        have hf : providerFails p = true := by
          simp [providerFails, ParallelSearchService.search_single_provider, hb, hs]
        simp [ParallelSearchService.search_single_provider, hb, hs, hf, ih]

theorem asyncCollectLoop_spec (ps : List Provider) :
    asyncCollectLoop ps =
      ((ps.filter asyncSucceeds).map responseOf,
       (ps.filter asyncSucceeds).map Provider.name,
       (ps.filter (fun p => !asyncSucceeds p)).map Provider.name) := by
  induction ps with
  | nil => rfl
  | cons p rest ih =>
    simp only [asyncCollectLoop, List.filter_cons]
    cases hfin : p.finishes with
    | false =>
      have hs : asyncSucceeds p = false := by simp [asyncSucceeds, hfin]
      simp [hfin, hs, ih]
    | true =>
      cases hb : p.behavior with
      | raises =>
        have hf : providerFails p = true := by
          simp [providerFails, ParallelSearchService.search_single_provider, hb]
        have hs : asyncSucceeds p = false := by simp [asyncSucceeds, hfin, hf]
        simp [hfin, ParallelSearchService.search_single_provider, hb, hs, ih]
      | returns r =>
        cases hsc : r.success with
        | true =>
          have hf : providerFails p = false := by
            simp [providerFails, ParallelSearchService.search_single_provider,
              hb, hsc]
          have hs : asyncSucceeds p = true := by simp [asyncSucceeds, hfin, hf]
          simp [hfin, ParallelSearchService.search_single_provider, hb, hsc,
            hs, ih, responseOf]
        | false =>
          have hf : providerFails p = true := by
            simp [providerFails, ParallelSearchService.search_single_provider,
              hb, hsc]
          have hs : asyncSucceeds p = false := by simp [asyncSucceeds, hfin, hf]
          simp [hfin, ParallelSearchService.search_single_provider, hb, hsc,
            hs, ih]

/-- A list whose stripped titles are non-empty and pairwise distinct and
whose length is within the cap passes through `_merge_results` unchanged,
even when concatenated with a second copy of itself. -/
theorem merge_results_of_deduped (s : List SearchItem) (n : Nat)
    (h1 : ∀ x ∈ s, titleKey x ≠ "") (h2 : (s.map titleKey).Nodup)
    (h3 : s.length ≤ n) :
    ParallelSearchService.merge_results [⟨s⟩] n = s ∧
    ParallelSearchService.merge_results [⟨s⟩, ⟨s⟩] n = s := by
  rcases eq_or_ne s [] with hs | hs
  · subst hs
    exact ⟨rfl, rfl⟩
  · have hflat1 : (List.map ResponseDict.results [(⟨s⟩ : ResponseDict)]).flatten = s := by
      simp
    have hflat2 :
        (List.map ResponseDict.results [(⟨s⟩ : ResponseDict), ⟨s⟩]).flatten = s ++ s := by
      simp
    have hloop1 : mergeLoop (s ++ []) [] [] n = [] ++ s :=
      mergeLoop_fresh_append s [] [] [] n h1 h2 (by simp) (by simpa using h3)
        (by simp)
    have hloop2 : mergeLoop (s ++ s) [] [] n = [] ++ s :=
      mergeLoop_fresh_append s s [] [] n h1 h2 (by simp) (by simpa using h3)
        (fun x hx => Or.inr (List.mem_map_of_mem titleKey hx))
    simp only [List.append_nil, List.nil_append] at hloop1 hloop2
    constructor
    · unfold ParallelSearchService.merge_results
      dsimp only
      rw [if_neg (by simp), hflat1, if_neg hs, hloop1]
      exact List.take_of_length_le h3
    · unfold ParallelSearchService.merge_results
      dsimp only
      rw [if_neg (by simp), hflat2, if_neg (by simp [hs]), hloop2]
      exact List.take_of_length_le h3

/- ### Characterization of the two entry points -/

theorem search_parallel_empty (svc : ParallelSearchService) (q : String)
    (n : Nat) (h : svc.providers = []) :
    ParallelSearchService.search_parallel svc q n =
      Except.ok (emptyParallelResult q) := by
  unfold ParallelSearchService.search_parallel
  rw [if_pos h]

theorem search_parallel_async_empty (svc : ParallelSearchService) (q : String)
    (n : Nat) (h : svc.providers = []) :
    ParallelSearchService.search_parallel_async svc q n =
      emptyParallelResult q := by
  unfold ParallelSearchService.search_parallel_async
  rw [if_pos h]

theorem search_parallel_ok (svc : ParallelSearchService) (q : String)
    (n : Nat) (hne : svc.providers ≠ [])
    (hfin : ∀ p ∈ svc.providers, p.finishes = true) :
    ParallelSearchService.search_parallel svc q n =
      Except.ok
        ⟨q, (svc.providers.filter (fun p => !providerFails p)).map responseOf,
          (svc.providers.filter (fun p => !providerFails p)).map Provider.name,
          ((svc.providers.filter (fun p => !providerFails p)).map Provider.name).length,
          (svc.providers.filter providerFails).map Provider.name,
          ParallelSearchService.merge_results
            ((svc.providers.filter (fun p => !providerFails p)).map responseOf)
            n⟩ := by
  have hall : svc.providers.all (fun p => p.finishes) = true := by
    rw [List.all_eq_true]
    exact hfin
  unfold ParallelSearchService.search_parallel
  rw [if_neg hne, if_pos hall]
  simp [collectLoop_spec]

theorem search_parallel_async_eq (svc : ParallelSearchService) (q : String)
    (n : Nat) (hne : svc.providers ≠ []) :
    ParallelSearchService.search_parallel_async svc q n =
      ⟨q, (svc.providers.filter asyncSucceeds).map responseOf,
        (svc.providers.filter asyncSucceeds).map Provider.name,
        ((svc.providers.filter asyncSucceeds).map Provider.name).length,
        (svc.providers.filter (fun p => !asyncSucceeds p)).map Provider.name,
        ParallelSearchService.merge_results
          ((svc.providers.filter asyncSucceeds).map responseOf) n⟩ := by
  unfold ParallelSearchService.search_parallel_async
  rw [if_neg hne]
  simp [asyncCollectLoop_spec]

/- ### Name bookkeeping under distinct provider names -/

theorem nodup_name_inj (l : List Provider)
    (hnd : (l.map Provider.name).Nodup) (p1 p2 : Provider)
    (h1 : p1 ∈ l) (h2 : p2 ∈ l) (heq : p1.name = p2.name) : p1 = p2 := by
  by_contra hne
  have hp : l.Pairwise (fun x y => x.name ≠ y.name) := List.pairwise_map.mp hnd
  exact hp.forall (fun x y hxy => hxy.symm) h1 h2 hne heq

theorem name_partition (l : List Provider) (A : Provider → Bool)
    (hnd : (l.map Provider.name).Nodup) :
    (∀ x ∈ (l.filter A).map Provider.name,
        x ∉ (l.filter (fun p => !A p)).map Provider.name) ∧
    ∀ p ∈ l,
      (p.name ∈ (l.filter A).map Provider.name ∧
        p.name ∉ (l.filter (fun p => !A p)).map Provider.name) ∨
      (p.name ∈ (l.filter (fun p => !A p)).map Provider.name ∧
        p.name ∉ (l.filter A).map Provider.name) := by
  have key : ∀ x, x ∈ (l.filter A).map Provider.name →
      x ∈ (l.filter (fun p => !A p)).map Provider.name → False := by
    intro x hxA hxB
    rcases List.mem_map.mp hxA with ⟨p1, hp1, hn1⟩
    rcases List.mem_map.mp hxB with ⟨p2, hp2, hn2⟩
    rcases List.mem_filter.mp hp1 with ⟨hp1l, hA1⟩
    rcases List.mem_filter.mp hp2 with ⟨hp2l, hA2⟩
    have h12 : p1 = p2 :=
      nodup_name_inj l hnd p1 p2 hp1l hp2l (hn1.trans hn2.symm)
    subst h12
    simp [hA1] at hA2
  constructor
  · exact fun x hx hx' => key x hx hx'
  · intro p hp
    by_cases hA : A p
    · left
      refine ⟨List.mem_map_of_mem _ (List.mem_filter.mpr ⟨hp, hA⟩), ?_⟩
      exact fun hmem =>
        key p.name (List.mem_map_of_mem _ (List.mem_filter.mpr ⟨hp, hA⟩)) hmem
    · have hA' : (!A p) = true := by simp [hA]
      right
      refine ⟨List.mem_map_of_mem _ (List.mem_filter.mpr ⟨hp, hA'⟩), ?_⟩
      exact fun hmem =>
        key p.name hmem (List.mem_map_of_mem _ (List.mem_filter.mpr ⟨hp, hA'⟩))

/- ### Claim theorems: the merge engine -/

/-- C4, counterexample: the claim says the default merge strategy dedupes by
normalized URL, but `_merge_results` dedupes by stripped title only.  Two
results whose URLs coincide after trimming and lower-casing but whose titles
differ both survive the merge, so two entries of `merged_results` share a
normalized URL. -/
theorem url_dedup_counterexample :
    ParallelSearchService.merge_results
        [⟨[⟨"Alpha", "http://example.com/a"⟩]⟩,
         ⟨[⟨"Beta", "HTTP://EXAMPLE.COM/A"⟩]⟩] 10 =
      [⟨"Alpha", "http://example.com/a"⟩, ⟨"Beta", "HTTP://EXAMPLE.COM/A"⟩] ∧
    specNormalizeUrl "http://example.com/a" =
      specNormalizeUrl "HTTP://EXAMPLE.COM/A" ∧
    (⟨"Alpha", "http://example.com/a"⟩ : SearchItem) ≠
      ⟨"Beta", "HTTP://EXAMPLE.COM/A"⟩ := by
  refine ⟨by decide, by decide, by decide⟩

/-- C4 (amended): the merge deduplicates by exact stripped title, not by
URL: no two entries of `merged_results` share a stripped title, and two
results with identical (even identically normalized) URLs but distinct
non-empty stripped titles are both kept. -/
theorem merge_dedupes_by_stripped_title (rs : List ResponseDict) (n : Nat)
    (a b : SearchItem) (ha : titleKey a ≠ "") (hb : titleKey b ≠ "")
    (hab : titleKey a ≠ titleKey b) :
    ((ParallelSearchService.merge_results rs n).map titleKey).Nodup ∧
    ParallelSearchService.merge_results [⟨[a, b]⟩] 2 = [a, b] := by
  refine ⟨merge_results_nodup rs n, ?_⟩
  refine (merge_results_of_deduped [a, b] 2 ?_ ?_ (by simp)).1
  · intro x hx
    rcases List.mem_pair.mp hx with h | h <;> subst h <;> assumption
  · simp [hab]

/-- C4 witness. -/
theorem merge_dedupes_by_stripped_title_witness :
    ((ParallelSearchService.merge_results
        [⟨[⟨"Alpha", "u"⟩, ⟨"Beta", "u"⟩]⟩] 10).map titleKey).Nodup ∧
    ParallelSearchService.merge_results
        [⟨[⟨"Alpha", "u"⟩, ⟨"Beta", "u"⟩]⟩] 2 =
      [⟨"Alpha", "u"⟩, ⟨"Beta", "u"⟩] :=
  merge_dedupes_by_stripped_title
    [⟨[⟨"Alpha", "u"⟩, ⟨"Beta", "u"⟩]⟩] 10
    ⟨"Alpha", "u"⟩ ⟨"Beta", "u"⟩ (by decide) (by decide) (by decide)

/-- C8: merge idempotence.  The output of `_merge_results` (already
deduplicated and within the cap), fed through the merge again — wrapped as
one provider contribution, or concatenated with itself as two — is returned
exactly, in the same order. -/
theorem merge_idempotent (rs : List ResponseDict) (n : Nat) :
    ParallelSearchService.merge_results
        [⟨ParallelSearchService.merge_results rs n⟩] n =
      ParallelSearchService.merge_results rs n ∧
    ParallelSearchService.merge_results
        [⟨ParallelSearchService.merge_results rs n⟩,
         ⟨ParallelSearchService.merge_results rs n⟩] n =
      ParallelSearchService.merge_results rs n :=
  merge_results_of_deduped _ n (merge_results_titles_ne rs n)
    (merge_results_nodup rs n) (merge_results_length_le rs n)

/-- C9: the single `max_results` argument also caps the merged sequence:
`_merge_results` never returns more than `max_results` entries, and hence
neither entry point's `merged_results` exceeds it. -/
theorem merged_results_capped (rs : List ResponseDict)
    (svc : ParallelSearchService) (q : String) (n : Nat)
    (res : ParallelSearchResult)
    (hok : ParallelSearchService.search_parallel svc q n = Except.ok res) :
    (ParallelSearchService.merge_results rs n).length ≤ n ∧
    (ParallelSearchService.search_parallel_async svc q n).merged_results.length ≤ n ∧
    res.merged_results.length ≤ n := by
  refine ⟨merge_results_length_le rs n, ?_, ?_⟩
  · unfold ParallelSearchService.search_parallel_async
    dsimp only
    split
    · simp [emptyParallelResult]
    · exact merge_results_length_le _ n
  · unfold ParallelSearchService.search_parallel at hok
    dsimp only at hok
    split at hok
    · simp only [Except.ok.injEq] at hok
      subst hok
      simp [emptyParallelResult]
    · split at hok
      · simp only [Except.ok.injEq] at hok
        subst hok
        exact merge_results_length_le _ n
      · exact absurd hok (by simp)

/-- C9 witness. -/
theorem merged_results_capped_witness :
    (ParallelSearchService.merge_results [⟨[⟨"T", "u"⟩]⟩] 3).length ≤ 3 ∧
    (ParallelSearchService.search_parallel_async
        ⟨[⟨"g", true, .returns ⟨[⟨"T", "u"⟩], true, none⟩, true⟩], 1⟩
        "q" 3).merged_results.length ≤ 3 ∧
    (⟨"q", [⟨[⟨"T", "u"⟩]⟩], ["g"], 1, [],
        [⟨"T", "u"⟩]⟩ : ParallelSearchResult).merged_results.length ≤ 3 :=
  merged_results_capped [⟨[⟨"T", "u"⟩]⟩]
    ⟨[⟨"g", true, .returns ⟨[⟨"T", "u"⟩], true, none⟩, true⟩], 1⟩ "q" 3
    ⟨"q", [⟨[⟨"T", "u"⟩]⟩], ["g"], 1, [], [⟨"T", "u"⟩]⟩ rfl

/-- C10: every entry of `merged_results` has a title that is non-empty
after stripping; a raw result whose title strips to the empty string never
appears in the output; and duplicate detection compares stripped titles
case-sensitively, so two items whose stripped titles differ (in particular,
only in letter case) are both kept. -/
theorem merge_title_nonempty_case_sensitive (rs : List ResponseDict)
    (n : Nat) (y a b : SearchItem) (hy : titleKey y = "")
    (ha : titleKey a ≠ "") (hb : titleKey b ≠ "")
    (hab : titleKey a ≠ titleKey b) :
    (∀ x ∈ ParallelSearchService.merge_results rs n, titleKey x ≠ "") ∧
    y ∉ ParallelSearchService.merge_results rs n ∧
    ParallelSearchService.merge_results [⟨[a, b]⟩] 2 = [a, b] := by
  refine ⟨merge_results_titles_ne rs n, ?_, ?_⟩
  · intro hyin
    exact merge_results_titles_ne rs n y hyin hy
  · refine (merge_results_of_deduped [a, b] 2 ?_ ?_ (by simp)).1
    · intro x hx
      rcases List.mem_pair.mp hx with h | h <;> subst h <;> assumption
    · simp [hab]

/-- C10 witness: a whitespace-only title is dropped, and `"Foo"`/`"foo"`
survive as two distinct entries. -/
theorem merge_title_nonempty_case_sensitive_witness :
    (∀ x ∈ ParallelSearchService.merge_results
        [⟨[⟨"   ", "u"⟩, ⟨"Foo", "u"⟩, ⟨"foo", "u"⟩]⟩] 5, titleKey x ≠ "") ∧
    (⟨"   ", "u"⟩ : SearchItem) ∉ ParallelSearchService.merge_results
        [⟨[⟨"   ", "u"⟩, ⟨"Foo", "u"⟩, ⟨"foo", "u"⟩]⟩] 5 ∧
    ParallelSearchService.merge_results [⟨[⟨"Foo", "u"⟩, ⟨"foo", "u"⟩]⟩] 2 =
      [⟨"Foo", "u"⟩, ⟨"foo", "u"⟩] :=
  merge_title_nonempty_case_sensitive
    [⟨[⟨"   ", "u"⟩, ⟨"Foo", "u"⟩, ⟨"foo", "u"⟩]⟩] 5
    ⟨"   ", "u"⟩ ⟨"Foo", "u"⟩ ⟨"foo", "u"⟩
    (by decide) (by decide) (by decide) (by decide)

/- ### Claim theorems: orchestration -/

/-- C1: failure isolation.  For N dispatched (available) providers of which
exactly k raise or return an error response, and all of which settle before
the timeout, `search_parallel` returns a result with
`len(providers_used) = N - k` and `len(failed_providers) = k`, its merged
results equal those of a run in which the k failing providers were never
dispatched, and no provider's exception reaches the caller (the call
returns `ok`). -/
theorem failure_isolation (ps : List Provider) (q : String) (n w : Nat)
    (hfin : ∀ p ∈ (ParallelSearchService.init ps w).providers,
      p.finishes = true) :
    ∃ res res' : ParallelSearchResult,
      ParallelSearchService.search_parallel (ParallelSearchService.init ps w)
          q n = Except.ok res ∧
      ParallelSearchService.search_parallel
          (ParallelSearchService.init
            (ps.filter (fun p => !providerFails p)) w) q n =
        Except.ok res' ∧
      res.providers_used.length =
        (ParallelSearchService.init ps w).providers.length -
          ((ParallelSearchService.init ps w).providers.filter
            providerFails).length ∧
      res.failed_providers.length =
        ((ParallelSearchService.init ps w).providers.filter
          providerFails).length ∧
      res.merged_results = res'.merged_results := by
  have hprov : (ParallelSearchService.init ps w).providers =
      ps.filter (fun p => p.is_available) := rfl
  have hprov' :
      (ParallelSearchService.init
        (ps.filter (fun p => !providerFails p)) w).providers =
      (ps.filter (fun p => p.is_available)).filter
        (fun p => !providerFails p) := by
    show (ps.filter (fun p => !providerFails p)).filter
        (fun p => p.is_available) = _
    simp [List.filter_filter, Bool.and_comm]
  have hsplit := length_filter_split providerFails
    (ps.filter (fun p => p.is_available))
  rcases eq_or_ne (ps.filter (fun p => p.is_available)) [] with h | h
  · refine ⟨emptyParallelResult q, emptyParallelResult q, ?_, ?_, ?_, ?_, rfl⟩
    · exact search_parallel_empty _ q n (hprov.trans h)
    · exact search_parallel_empty _ q n (by rw [hprov', h]; rfl)
    · simp [emptyParallelResult, hprov, h]
    · simp [emptyParallelResult, hprov, h]
  · have hfin1 : ∀ p ∈ ps.filter (fun p => p.is_available),
        p.finishes = true := hprov ▸ hfin
    have h1 := search_parallel_ok (ParallelSearchService.init ps w) q n
      (by rw [hprov]; exact h) hfin
    rw [hprov] at h1
    rcases eq_or_ne ((ps.filter (fun p => p.is_available)).filter
        (fun p => !providerFails p)) [] with h2 | h2
    · have h1' := search_parallel_empty
        (ParallelSearchService.init
          (ps.filter (fun p => !providerFails p)) w) q n
        (by rw [hprov', h2])
      refine ⟨_, _, h1, h1', ?_, ?_, ?_⟩
      · rw [hprov]
        simp only [List.length_map]
        omega
      · rw [hprov]
        simp
      · show ParallelSearchService.merge_results _ n =
          (emptyParallelResult q).merged_results
        rw [h2]
        rfl
    · have hfin2 : ∀ p ∈ (ParallelSearchService.init
          (ps.filter (fun p => !providerFails p)) w).providers,
          p.finishes = true := by
        rw [hprov']
        intro p hp
        exact hfin1 p (List.mem_of_mem_filter hp)
      have h1' := search_parallel_ok
        (ParallelSearchService.init
          (ps.filter (fun p => !providerFails p)) w) q n
        (by rw [hprov']; exact h2) hfin2
      rw [hprov'] at h1'
      have hidem : ((ps.filter (fun p => p.is_available)).filter
            (fun p => !providerFails p)).filter (fun p => !providerFails p) =
          (ps.filter (fun p => p.is_available)).filter
            (fun p => !providerFails p) :=
        List.filter_eq_self.mpr (fun a ha => (List.mem_filter.mp ha).2)
      rw [hidem] at h1'
      refine ⟨_, _, h1, h1', ?_, ?_, rfl⟩
      · rw [hprov]
        simp only [List.length_map]
        omega
      · rw [hprov]
        simp

/-- C1 witness: three available finishing providers — one succeeding with a
result, one raising, one returning an error response. -/
theorem failure_isolation_witness :
    (let l : List Provider :=
      [⟨"good", true, .returns ⟨[⟨"G", "u"⟩], true, none⟩, true⟩,
       ⟨"boom", true, .raises, true⟩,
       ⟨"err", true, .returns ⟨[], false, some "rate limited"⟩, true⟩]
     ∃ res res' : ParallelSearchResult,
      ParallelSearchService.search_parallel (ParallelSearchService.init l 3)
          "q" 10 = Except.ok res ∧
      ParallelSearchService.search_parallel
          (ParallelSearchService.init
            (l.filter (fun p => !providerFails p)) 3) "q" 10 =
        Except.ok res' ∧
      res.providers_used.length =
        (ParallelSearchService.init l 3).providers.length -
          ((ParallelSearchService.init l 3).providers.filter
            providerFails).length ∧
      res.failed_providers.length =
        ((ParallelSearchService.init l 3).providers.filter
          providerFails).length ∧
      res.merged_results = res'.merged_results) := by
  exact failure_isolation _ "q" 10 3 (by decide)

/-- C2 counterexample: a single available provider that has not completed by
the timeout makes the blocking `search_parallel` raise
`concurrent.futures.TimeoutError` out of the aggregate boundary instead of
returning a result object. -/
theorem timeout_raises_counterexample :
    ParallelSearchService.search_parallel
        (ParallelSearchService.init
          [⟨"slow", true, .returns ⟨[], true, none⟩, false⟩] 3) "q" 10 =
      Except.error "concurrent.futures.TimeoutError" := rfl

/-- C2 (amended): when a dispatched provider has not completed by the
overall timeout, the suspension-based `search_parallel_async` still returns
a well-formed result recording that provider in `failed_providers`, but the
blocking `search_parallel` raises `TimeoutError` (from
`as_completed`) past the aggregate boundary. -/
theorem timeout_behavior (svc : ParallelSearchService) (q : String) (n : Nat)
    (p : Provider) (hp : p ∈ svc.providers) (hnf : p.finishes = false) :
    p.name ∈ (ParallelSearchService.search_parallel_async svc q n).failed_providers ∧
    ParallelSearchService.search_parallel svc q n =
      Except.error "concurrent.futures.TimeoutError" := by
  have hne : svc.providers ≠ [] := List.ne_nil_of_mem hp
  constructor
  · rw [search_parallel_async_eq svc q n hne]
    have hs : (!asyncSucceeds p) = true := by simp [asyncSucceeds, hnf]
    exact List.mem_map_of_mem _ (List.mem_filter.mpr ⟨hp, hs⟩)
  · have hnall : ¬(svc.providers.all (fun p => p.finishes) = true) := by
      rw [List.all_eq_true]
      push_neg
      exact ⟨p, hp, by simp [hnf]⟩
    unfold ParallelSearchService.search_parallel
    rw [if_neg hne, if_neg hnall]

/-- C2 witness: one finished and one unfinished provider. -/
theorem timeout_behavior_witness :
    "slow" ∈ (ParallelSearchService.search_parallel_async
        ⟨[⟨"ok", true, .returns ⟨[⟨"T", "u"⟩], true, none⟩, true⟩,
          ⟨"slow", true, .returns ⟨[], true, none⟩, false⟩], 2⟩
        "q" 10).failed_providers ∧
    ParallelSearchService.search_parallel
        ⟨[⟨"ok", true, .returns ⟨[⟨"T", "u"⟩], true, none⟩, true⟩,
          ⟨"slow", true, .returns ⟨[], true, none⟩, false⟩], 2⟩ "q" 10 =
      Except.error "concurrent.futures.TimeoutError" := by
  exact timeout_behavior _ "q" 10
    ⟨"slow", true, .returns ⟨[], true, none⟩, false⟩ (by decide) rfl

/-- C3 counterexample: with no available provider, the returned value is the
all-empty `ParallelSearchResult` record — it carries no success flag and no
error message of any kind, so no "descriptive error" is returned. -/
theorem no_provider_result_counterexample :
    ParallelSearchService.search_parallel
        (ParallelSearchService.init [⟨"x", false, .raises, true⟩] 3)
        "q" 10 =
      Except.ok ⟨"q", [], [], 0, [], []⟩ ∧
    ParallelSearchService.search_parallel_async
        (ParallelSearchService.init [⟨"x", false, .raises, true⟩] 3)
        "q" 10 = ⟨"q", [], [], 0, [], []⟩ :=
  ⟨rfl, rfl⟩

/-- C3 (amended): when the available-filtered provider set is empty, both
entry points short-circuit before any dispatch and return the empty result:
empty `merged_results`, empty `providers_used`, empty `failed_providers`
and `success_count = 0`.  The result type has no success flag or error
field, so no descriptive error is carried. -/
theorem empty_provider_short_circuit (ps : List Provider) (q : String)
    (n w : Nat) (h : ps.filter (fun p => p.is_available) = []) :
    ParallelSearchService.search_parallel (ParallelSearchService.init ps w)
        q n = Except.ok (emptyParallelResult q) ∧
    ParallelSearchService.search_parallel_async
        (ParallelSearchService.init ps w) q n = emptyParallelResult q :=
  ⟨search_parallel_empty _ q n h, search_parallel_async_empty _ q n h⟩

/-- C3 witness: one configured but unavailable provider. -/
theorem empty_provider_short_circuit_witness :
    ParallelSearchService.search_parallel
        (ParallelSearchService.init
          [⟨"noKey", false, .returns ⟨[⟨"T", "u"⟩], true, none⟩, true⟩] 3)
        "q" 10 = Except.ok (emptyParallelResult "q") ∧
    ParallelSearchService.search_parallel_async
        (ParallelSearchService.init
          [⟨"noKey", false, .returns ⟨[⟨"T", "u"⟩], true, none⟩, true⟩] 3)
        "q" 10 = emptyParallelResult "q" := by
  exact empty_provider_short_circuit _ "q" 10 3 (by decide)

/-- C5 counterexample: two dispatched providers sharing the name `"p"`, one
succeeding and one raising, put `"p"` into `providers_used` and
`failed_providers` simultaneously, so the two collections are not disjoint
and the partition claim fails as stated. -/
theorem partition_counterexample :
    "p" ∈ (ParallelSearchService.search_parallel_async
        (ParallelSearchService.init
          [⟨"p", true, .returns ⟨[⟨"T", "u"⟩], true, none⟩, true⟩,
           ⟨"p", true, .raises, true⟩] 3) "q" 10).providers_used ∧
    "p" ∈ (ParallelSearchService.search_parallel_async
        (ParallelSearchService.init
          [⟨"p", true, .returns ⟨[⟨"T", "u"⟩], true, none⟩, true⟩,
           ⟨"p", true, .raises, true⟩] 3) "q" 10).failed_providers :=
  ⟨by decide, by decide⟩

/-- C5 (amended): assuming the dispatched providers carry pairwise-distinct
names, `providers_used` and `failed_providers` are disjoint and every
dispatched provider's name appears in exactly one of the two; this holds
for the asynchronous entry point and for every completed (non-raising) call
of the blocking entry point. -/
theorem partition_invariant (svc : ParallelSearchService) (q : String)
    (n : Nat) (hnd : (svc.providers.map Provider.name).Nodup) :
    ((∀ x ∈ (ParallelSearchService.search_parallel_async svc q n).providers_used,
        x ∉ (ParallelSearchService.search_parallel_async svc q n).failed_providers) ∧
      ∀ p ∈ svc.providers,
        (p.name ∈ (ParallelSearchService.search_parallel_async svc q n).providers_used ∧
          p.name ∉ (ParallelSearchService.search_parallel_async svc q n).failed_providers) ∨
        (p.name ∈ (ParallelSearchService.search_parallel_async svc q n).failed_providers ∧
          p.name ∉ (ParallelSearchService.search_parallel_async svc q n).providers_used)) ∧
    ∀ res, ParallelSearchService.search_parallel svc q n = Except.ok res →
      (∀ x ∈ res.providers_used, x ∉ res.failed_providers) ∧
      ∀ p ∈ svc.providers,
        (p.name ∈ res.providers_used ∧ p.name ∉ res.failed_providers) ∨
        (p.name ∈ res.failed_providers ∧ p.name ∉ res.providers_used) := by
  constructor
  · rcases eq_or_ne svc.providers [] with h | h
    · rw [search_parallel_async_empty svc q n h]
      constructor
      · intro x hx
        simp [emptyParallelResult] at hx
      · intro p hp
        rw [h] at hp
        simp at hp
    · rw [search_parallel_async_eq svc q n h]
      exact name_partition svc.providers asyncSucceeds hnd
  · intro res hok
    rcases eq_or_ne svc.providers [] with h | h
    · rw [search_parallel_empty svc q n h] at hok
      simp only [Except.ok.injEq] at hok
      subst hok
      constructor
      · intro x hx
        simp [emptyParallelResult] at hx
      · intro p hp
        rw [h] at hp
        simp at hp
    · by_cases hall : ∀ p' ∈ svc.providers, p'.finishes = true
      · rw [search_parallel_ok svc q n h hall] at hok
        simp only [Except.ok.injEq] at hok
        subst hok
        have hpart := name_partition svc.providers
          (fun x => !providerFails x) hnd
        constructor
        · intro x hx
          have hnot := hpart.1 x hx
          simpa [Bool.not_not] using hnot
        · intro p hp
          rcases hpart.2 p hp with ⟨h1, h2⟩ | ⟨h1, h2⟩
          · exact Or.inl ⟨h1, by simpa [Bool.not_not] using h2⟩
          · exact Or.inr ⟨by simpa [Bool.not_not] using h1, h2⟩
      · have herr : ParallelSearchService.search_parallel svc q n =
            Except.error "concurrent.futures.TimeoutError" := by
          have hnall : ¬(svc.providers.all (fun p => p.finishes) = true) := by
            rw [List.all_eq_true]
            exact hall
          unfold ParallelSearchService.search_parallel
          rw [if_neg h, if_neg hnall]
        rw [herr] at hok
        exact absurd hok (by simp)

/-- C5 witness: two distinct-named providers, one succeeding, one raising. -/
theorem partition_invariant_witness :
    (let svc := ParallelSearchService.init
      [⟨"good", true, .returns ⟨[⟨"G", "u"⟩], true, none⟩, true⟩,
       ⟨"boom", true, .raises, true⟩] 3
     ((∀ x ∈ (ParallelSearchService.search_parallel_async svc "q" 10).providers_used,
        x ∉ (ParallelSearchService.search_parallel_async svc "q" 10).failed_providers) ∧
      ∀ p ∈ svc.providers,
        (p.name ∈ (ParallelSearchService.search_parallel_async svc "q" 10).providers_used ∧
          p.name ∉ (ParallelSearchService.search_parallel_async svc "q" 10).failed_providers) ∨
        (p.name ∈ (ParallelSearchService.search_parallel_async svc "q" 10).failed_providers ∧
          p.name ∉ (ParallelSearchService.search_parallel_async svc "q" 10).providers_used)) ∧
    ∀ res, ParallelSearchService.search_parallel svc "q" 10 = Except.ok res →
      (∀ x ∈ res.providers_used, x ∉ res.failed_providers) ∧
      ∀ p ∈ svc.providers,
        (p.name ∈ res.providers_used ∧ p.name ∉ res.failed_providers) ∨
        (p.name ∈ res.failed_providers ∧ p.name ∉ res.providers_used)) := by
  exact partition_invariant _ "q" 10 (by decide)

/-- C6: a dispatched provider that settles in time and returns a successful
response with zero results is recorded in `providers_used` and not in
`failed_providers` (under pairwise-distinct provider names), in the
asynchronous entry point and in every completed call of the blocking one. -/
theorem empty_success_in_used (svc : ParallelSearchService) (q : String)
    (n : Nat) (p : Provider) (em : Option String)
    (hnd : (svc.providers.map Provider.name).Nodup)
    (hp : p ∈ svc.providers)
    (hb : p.behavior = ProviderBehavior.returns ⟨[], true, em⟩)
    (hfin : p.finishes = true) :
    (p.name ∈ (ParallelSearchService.search_parallel_async svc q n).providers_used ∧
      p.name ∉ (ParallelSearchService.search_parallel_async svc q n).failed_providers) ∧
    ∀ res, ParallelSearchService.search_parallel svc q n = Except.ok res →
      p.name ∈ res.providers_used ∧ p.name ∉ res.failed_providers := by
  have hne : svc.providers ≠ [] := List.ne_nil_of_mem hp
  have hpf : providerFails p = false := by
    simp [providerFails, ParallelSearchService.search_single_provider, hb]
  have hsucc : asyncSucceeds p = true := by simp [asyncSucceeds, hfin, hpf]
  constructor
  · rw [search_parallel_async_eq svc q n hne]
    have hinA : p.name ∈ (svc.providers.filter asyncSucceeds).map Provider.name :=
      List.mem_map_of_mem _ (List.mem_filter.mpr ⟨hp, hsucc⟩)
    exact ⟨hinA, (name_partition svc.providers asyncSucceeds hnd).1 _ hinA⟩
  · intro res hok
    by_cases hall : ∀ p' ∈ svc.providers, p'.finishes = true
    · rw [search_parallel_ok svc q n hne hall] at hok
      simp only [Except.ok.injEq] at hok
      subst hok
      have hA' : (!providerFails p) = true := by simp [hpf]
      have hinA : p.name ∈
          (svc.providers.filter (fun x => !providerFails x)).map Provider.name :=
        List.mem_map_of_mem _ (List.mem_filter.mpr ⟨hp, hA'⟩)
      refine ⟨hinA, ?_⟩
      have hnot := (name_partition svc.providers
        (fun x => !providerFails x) hnd).1 _ hinA
      simpa [Bool.not_not] using hnot
    · have hnall : ¬(svc.providers.all (fun p => p.finishes) = true) := by
        rw [List.all_eq_true]
        exact hall
      have herr : ParallelSearchService.search_parallel svc q n =
          Except.error "concurrent.futures.TimeoutError" := by
        unfold ParallelSearchService.search_parallel
        rw [if_neg hne, if_neg hnall]
      rw [herr] at hok
      exact absurd hok (by simp)

/-- C6 witness: a provider returning success with zero results lands in
`providers_used` of both entry points. -/
theorem empty_success_in_used_witness :
    (let svc : ParallelSearchService :=
      ⟨[⟨"empty", true, .returns ⟨[], true, none⟩, true⟩,
        ⟨"boom", true, .raises, true⟩], 2⟩
     ("empty" ∈ (ParallelSearchService.search_parallel_async svc "q" 10).providers_used ∧
      "empty" ∉ (ParallelSearchService.search_parallel_async svc "q" 10).failed_providers) ∧
    ∀ res, ParallelSearchService.search_parallel svc "q" 10 = Except.ok res →
      "empty" ∈ res.providers_used ∧ "empty" ∉ res.failed_providers) := by
  exact empty_success_in_used _ "q" 10
    ⟨"empty", true, .returns ⟨[], true, none⟩, true⟩ none
    (by decide) (by decide) rfl rfl

end DailyStock
